import Mathlib

/-!
Verification development for the YakDev agent worker (Cloudflare Worker +
Linear + Telegram + Anthropic tool loop).

Shallow embedding of the program source:
* `src/worker/src/briefing.js` — daily briefing, change-detection cache,
  `hashIssues` fingerprint (normalize → sort → JSON.stringify → SHA-256).
* `src/worker/src/tools.js`    — tool handlers and `executeTool` dispatch.
* `src/worker/src/agent.js`    — Claude tool-use loop, conversation history.

External effects are modelled explicitly:
* Linear GraphQL mutations (`updateIssue`, `createIssue`, …) are pure
  oracle functions bundled in `ExtCalls`; a thrown JS exception is an
  `Except.error`.  The calls a handler issues are recorded in an
  `ExtCall` log (the `ToolM` state), so "no mutation was issued" is a
  statement about the log.
* The SHA-256 digest of the Web Crypto API is an opaque parameter
  `digest : String → String` applied to the canonical JSON serialization
  (which we implement concretely, including JSON string escaping).
* The Anthropic model is an oracle: for the agent loop a response
  sequence `Nat → Response`, for the briefing a generated text `gen`.

JavaScript specifics kept faithfully: `toUpperCase`/`toLowerCase` map
chars pointwise (`jsToUpper`/`jsToLower`); string truthiness means
non-empty; `Array.prototype.sort` on strings and the
`localeCompare`-keyed sort of normalized issues are modelled as
insertion sort by the total order on strings; `JSON.stringify` drops
`undefined`-valued keys (`Option.none` of optional chaining) and keeps
`null` (absent `dueDate` from GraphQL).
-/

namespace YakDev

/- ───────────────────────── JSON serialization layer ──────────────────────
   Concrete model of `JSON.stringify(normalized)` from
   `briefing.js hashIssues` (lines 156-173), over `List Char`. -/

/-- Decimal digit character for `n < 10`. -/
def digitChar (n : Nat) : Char := Char.ofNat (48 + n)

/-- Lowercase hex digit character for `n < 16` (as used in `\u00XX`). -/
def hexChar (n : Nat) : Char :=
  if n < 10 then Char.ofNat (48 + n) else Char.ofNat (87 + n)

/-- Is `c` an ASCII decimal digit? -/
def isDigitCh (c : Char) : Bool := 48 ≤ c.toNat && c.toNat ≤ 57

/-- JSON string escaping of one character, exactly as `JSON.stringify`:
`"` and `\` get a backslash escape, the named control characters get
two-character escapes, all other control characters below U+0020 get
`\u00XX`, everything else is emitted verbatim. -/
def escChar (c : Char) : List Char :=
  if c = '"' then ['\\', '"']
  else if c = '\\' then ['\\', '\\']
  else if 32 ≤ c.toNat then [c]
  else if c = '\x08' then ['\\', 'b']
  else if c = '\x09' then ['\\', 't']
  else if c = '\x0a' then ['\\', 'n']
  else if c = '\x0c' then ['\\', 'f']
  else if c = '\x0d' then ['\\', 'r']
  else ['\\', 'u', '0', '0', hexChar (c.toNat / 16), hexChar (c.toNat % 16)]

/-- JSON escaping of a character sequence. -/
def escStr (s : List Char) : List Char := (s.map escChar).flatten

/-- `JSON.stringify` of a string: quoted and escaped. -/
def serStr (s : String) : List Char := '"' :: (escStr s.data ++ ['"'])

/-- Decimal digits of a natural number (`JSON.stringify` of a number;
Linear priorities are the integers 0–4). -/
def natChars (n : Nat) : List Char :=
  if n < 10 then [digitChar n]
  else natChars (n / 10) ++ [digitChar (n % 10)]
decreasing_by
  exact Nat.div_lt_self (by omega) (by omega)

/-- Value of a digit string (decoder used to prove `natChars` injective). -/
def charsVal (l : List Char) : Nat := l.foldl (fun a c => 10 * a + (c.toNat - 48)) 0

/-- Comma-separated concatenation, as in `JSON.stringify` of arrays and
of the present fields of an object. -/
def commaJoin : List (List Char) → List Char
  | [] => []
  | [x] => x
  | x :: y :: xs => x ++ ',' :: commaJoin (y :: xs)

/-- One normalized issue, the object built in `hashIssues`
(`briefing.js` lines 158-166).  `status`/`assignee`/`project` come from
optional chaining, so a missing one is JS `undefined` and its key is
dropped by `JSON.stringify`; `dueDate` comes straight from GraphQL, so a
missing one is JS `null` and serializes as `null`. -/
structure NormIssue where
  id : String
  status : Option String
  priority : Nat
  assignee : Option String
  project : Option String
  labels : List String
  dueDate : Option String
deriving DecidableEq, Repr

/-- Serialized object key tokens (with the `{`/`,` separator that
precedes them in the object literal). -/
def keyId : List Char := ['{', '"', 'i', 'd', '"', ':']

/-- Key token for `status`. -/
def keyStatus : List Char := [',', '"', 's', 't', 'a', 't', 'u', 's', '"', ':']

/-- Key token for `priority`. -/
def keyPriority : List Char :=
  [',', '"', 'p', 'r', 'i', 'o', 'r', 'i', 't', 'y', '"', ':']

/-- Key token for `assignee`. -/
def keyAssignee : List Char :=
  [',', '"', 'a', 's', 's', 'i', 'g', 'n', 'e', 'e', '"', ':']

/-- Key token for `project`. -/
def keyProject : List Char :=
  [',', '"', 'p', 'r', 'o', 'j', 'e', 'c', 't', '"', ':']

/-- Key token for `labels`. -/
def keyLabels : List Char := [',', '"', 'l', 'a', 'b', 'e', 'l', 's', '"', ':']

/-- Key token for `dueDate`. -/
def keyDueDate : List Char :=
  [',', '"', 'd', 'u', 'e', 'D', 'a', 't', 'e', '"', ':']

/-- JSON `null` literal. -/
def nullChars : List Char := ['n', 'u', 'l', 'l']

/-- An optional (undefined-droppable) string field. -/
def optField (key : List Char) : Option String → List Char
  | none => []
  | some s => key ++ serStr s

/-- `JSON.stringify` of one normalized issue object. -/
def serNorm (n : NormIssue) : List Char :=
  keyId ++ serStr n.id
    ++ optField keyStatus n.status
    ++ keyPriority ++ natChars n.priority
    ++ optField keyAssignee n.assignee
    ++ optField keyProject n.project
    ++ keyLabels ++ ('[' :: (commaJoin (n.labels.map serStr) ++ [']']))
    ++ keyDueDate
    ++ (match n.dueDate with
        | none => nullChars
        | some d => serStr d)
    ++ ['}']

/-- `JSON.stringify` of the normalized issue array. -/
def serNormList (l : List NormIssue) : List Char :=
  '[' :: (commaJoin (l.map serNorm) ++ [']'])

/- ─────────────────────────── Linear data model ───────────────────────────
   Entity shapes as returned by the GraphQL queries in `linear.js`. -/

/-- A workflow state: `{ id name type }`. -/
structure WState where
  id : String
  name : String
  type : String
deriving DecidableEq, Repr

/-- A label: `{ id name }`. -/
structure Label where
  id : String
  name : String
deriving DecidableEq, Repr

/-- An id/name reference embedded in an issue (`project`/`assignee`
sub-objects of the issue query). -/
structure NamedRef where
  id : String
  name : String
deriving DecidableEq, Repr

/-- A project from `fetchProjects`: `{ id name state }`. -/
structure Project where
  id : String
  name : String
  state : String := ""
deriving DecidableEq, Repr

/-- A team member from `fetchMembers`: `{ id name displayName }` (the
name fields are optional: the handler uses `m.name?.` chaining). -/
structure Member where
  id : String := ""
  name : Option String := none
  displayName : Option String := none
deriving DecidableEq, Repr

/-- An issue node from `fetchActiveIssues`. -/
structure Issue where
  id : String := ""
  identifier : String := ""
  title : String := ""
  description : Option String := none
  priority : Nat := 0
  priorityLabel : String := ""
  dueDate : Option String := none
  state : Option WState := none
  project : Option NamedRef := none
  assignee : Option NamedRef := none
  labels : List Label := []
  url : String := ""
  createdAt : String := ""
  updatedAt : String := ""
deriving DecidableEq, Repr

/- ─────────────────────── Fingerprint (hashIssues) ──────────────────────── -/

/-- String order used to model both JS default array sort on strings and
the `localeCompare` comparator (a total order on strings; determinism of
the fingerprint only needs totality). -/
def strLe (a b : String) : Prop := a ≤ b

instance : DecidableRel strLe := fun a b => inferInstanceAs (Decidable (a ≤ b))

instance : IsTotal String strLe := ⟨fun a b => le_total a b⟩

instance : IsTrans String strLe := ⟨fun _ _ _ h1 h2 => le_trans h1 h2⟩

instance : IsAntisymm String strLe := ⟨fun _ _ h1 h2 => le_antisymm h1 h2⟩

/-- The comparator `(a, b) => a.id.localeCompare(b.id)` of `hashIssues`,
as the corresponding order on normalized issues. -/
def normLe (a b : NormIssue) : Prop := strLe a.id b.id

instance : DecidableRel normLe := fun a b =>
  inferInstanceAs (Decidable (strLe a.id b.id))

instance : IsTotal NormIssue normLe := ⟨fun a b => le_total a.id b.id⟩

instance : IsTrans NormIssue normLe := ⟨fun _ _ _ h1 h2 => le_trans h1 h2⟩

/-- Normalization of one issue in `hashIssues`: pick the tracked fields,
with label names sorted (`.sort()`). -/
def normalizeIssue (i : Issue) : NormIssue :=
  { id := i.identifier
    status := i.state.map WState.name
    priority := i.priority
    assignee := i.assignee.map NamedRef.name
    project := i.project.map NamedRef.name
    labels := List.insertionSort strLe (i.labels.map Label.name)
    dueDate := i.dueDate }

/-- Normalized, identifier-sorted issue list
(`.sort((a, b) => a.id.localeCompare(b.id))`). -/
def normalizedIssues (issues : List Issue) : List NormIssue :=
  List.insertionSort normLe (issues.map normalizeIssue)

/-- The canonical serialization that gets hashed. -/
def serializeIssues (issues : List Issue) : String :=
  String.mk (serNormList (normalizedIssues issues))

/-- `hashIssues` with the SHA-256 hex digest abstracted as `digest`
(Web Crypto is outside the program text). -/
def hashIssues (digest : String → String) (issues : List Issue) : String :=
  digest (serializeIssues issues)

/- ─────────────────── Daily briefing cache (briefing.js) ────────────────── -/

/-- Escalation threshold (`briefing.js` line 7). -/
def STALE_DAYS_THRESHOLD : Nat := 3

/-- Fixed message for an empty snapshot (`briefing.js` lines 36-43). -/
def NO_ISSUES_MSG : String :=
  "No active issues in Linear. Either you're crushing it or something is wrong."

/-- Fixed escalation message (`briefing.js` line 60). -/
def SNAP_MSG : String := "SNAP OUT OF IT, LOCK IN!"

/-- The KV cache record `{ hash briefing unchangedDays lastRun }`. -/
structure CacheRec where
  hash : String
  briefing : String
  unchangedDays : Nat
  lastRun : String
deriving DecidableEq, Repr

/-- Observable outcome of one scheduled run: the text sent to Telegram
and the record written to KV (`none` = no `KV.put` happened). -/
structure BriefOut where
  sent : String
  write : Option CacheRec
deriving DecidableEq, Repr

/-- `handleDailyBriefing` (`briefing.js` lines 16-96) for one run.
`digest` abstracts SHA-256, `gen` is the text the Anthropic call would
produce on this run, `today` the run date, `cache` the current KV record
(`none` for absent/corrupt).  The error path for a failed Linear fetch
is outside the model (the snapshot is an input). -/
def handleDailyBriefing (digest : String → String) (gen : String)
    (today : String) (issues : List Issue) (cache : Option CacheRec) :
    BriefOut :=
  if issues.length = 0 then
    { sent := NO_ISSUES_MSG, write := none }
  else
    let currentHash := hashIssues digest issues
    let fresh : BriefOut :=
      { sent := gen
        write := some
          { hash := currentHash, briefing := gen, unchangedDays := 0,
            lastRun := today } }
    match cache with
    | some c =>
      if c.hash = currentHash then
        let unchangedDays := c.unchangedDays + 1
        let briefing :=
          if STALE_DAYS_THRESHOLD ≤ unchangedDays then SNAP_MSG else c.briefing
        { sent := briefing
          write := some
            { hash := currentHash
              briefing := c.briefing  -- always keep the real briefing text
              unchangedDays := unchangedDays
              lastRun := today } }
      else fresh
    | none => fresh

/- ─────────────────────── JS string helpers (tools.js) ──────────────────── -/

/-- JS `String.prototype.toUpperCase` (pointwise char map). -/
def jsToUpper (s : String) : String := String.mk (s.data.map Char.toUpper)

/-- JS `String.prototype.toLowerCase` (pointwise char map). -/
def jsToLower (s : String) : String := String.mk (s.data.map Char.toLower)

/-- Is the first list a prefix of the second? -/
def isPrefixOfChars : List Char → List Char → Bool
  | [], _ => true
  | _ :: _, [] => false
  | a :: as, b :: bs => a == b && isPrefixOfChars as bs

/-- Does `needle` occur contiguously inside `hay`? -/
def isInfixOfChars : List Char → List Char → Bool
  | needle, [] => isPrefixOfChars needle []
  | needle, c :: t => isPrefixOfChars needle (c :: t) || isInfixOfChars needle t

/-- JS `String.prototype.includes` (substring containment). -/
def jsIncludes (hay needle : String) : Bool := isInfixOfChars needle.data hay.data

/- ──────────────────────── Tool execution (tools.js) ────────────────────── -/

/-- The parsed `input` object of a tool call.  JS reads fields off one
dynamic object; string fields tested for truthiness are plain strings
with `""` meaning absent, fields tested with `!== undefined` are
`Option`. -/
structure Subtask where
  title : String := ""
  description : String := ""
  due_date : String := ""
  priority : Option Nat := none
deriving DecidableEq, Repr

/-- Tool-call input fields (union of all tool schemas). -/
structure ToolInput where
  issue_identifier : String := ""
  status : String := ""
  priority : Option Nat := none
  comment : String := ""
  label_name : String := ""
  title : String := ""
  description : String := ""
  project_name : String := ""
  due_date : String := ""
  name : String := ""
  assignee_name : String := ""
  subtasks : List Subtask := []
deriving DecidableEq, Repr

/-- The `input` argument of the `issueUpdate` mutation; an absent field
is not sent.  `dueDate = some none` models sending an explicit `null`
(clearing the due date). -/
structure UpdateInput where
  stateId : Option String := none
  priority : Option Nat := none
  labelIds : Option (List String) := none
  assigneeId : Option String := none
  dueDate : Option (Option String) := none
deriving DecidableEq, Repr

/-- The `input` argument of the `issueCreate` mutation. -/
structure CreateInput where
  teamId : String := ""
  title : String := ""
  description : Option String := none
  priority : Option Nat := none
  dueDate : Option String := none
  projectId : Option String := none
  stateId : Option String := none
  parentId : Option String := none
deriving DecidableEq, Repr

/-- Issue payload returned by the `issueUpdate` mutation. -/
structure UpdatedIssue where
  id : String := ""
  identifier : String := ""
  title : String := ""
  dueDate : Option String := none
  stateName : String := ""
  priority : Nat := 0
  priorityLabel : String := ""
  assigneeName : Option String := none
  labelNames : List String := []
  projectName : Option String := none
deriving DecidableEq, Repr

/-- Issue payload returned by the `issueCreate` mutation. -/
structure CreatedIssue where
  id : String := ""
  identifier : String := ""
  title : String := ""
  url : String := ""
  dueDate : Option String := none
  stateName : String := ""
deriving DecidableEq, Repr

/-- Comment payload returned by the `commentCreate` mutation. -/
structure CreatedComment where
  id : String := ""
  body : String := ""
deriving DecidableEq, Repr

/-- Project payload returned by the `projectCreate` mutation. -/
structure CreatedProject where
  id : String := ""
  name : String := ""
deriving DecidableEq, Repr

/-- One external Linear mutation actually issued by a handler. -/
inductive ExtCall where
  | updateIssue (issueId : String) (input : UpdateInput)
  | createIssue (input : CreateInput)
  | createComment (issueId : String) (body : String)
  | createProject (name : String) (teamIds : List String)
      (description : Option String)
  | createLabel (teamId : String) (name : String)
deriving DecidableEq, Repr

/-- Result oracles for the external mutations: what each call would
return, or the exception it would throw (`Except.error`). -/
structure ExtCalls where
  updateIssue : String → UpdateInput → Except String UpdatedIssue
  createIssue : CreateInput → Except String CreatedIssue
  createComment : String → String → Except String CreatedComment
  createProject : String → List String → Option String →
      Except String CreatedProject
  createLabel : String → String → Except String Label

/-- Success payloads of the individual handlers (the shapes of the
`{ success: true, ... }` objects in `tools.js`). -/
inductive SuccessPayload where
  | statusUpdate (issue : String) (title : String) (new_status : String)
  | priorityUpdate (issue : String) (title : String) (new_priority : String)
  | commentAdd (issue : String) (comment_preview : String)
  | labelAlready (message : String)
  | labelAdd (issue : String) (labels : List String)
  | issueCreate (issue : String) (title : String) (url : String)
      (due_date : Option String)
      (subtasks : Option (List (String × String × Option String)))
  | projectCreate (project : String) (id : String)
  | assign (issue : String) (title : String) (assignee : Option String)
  | dueDateUpdate (issue : String) (title : String) (due_date : String)
deriving DecidableEq, Repr

/-- Result object a tool call produces for Claude: either a success
payload or an `{ error: ... }` object. -/
inductive ToolResult where
  | success (payload : SuccessPayload)
  | error (msg : String)
deriving DecidableEq, Repr

/-- Is this result a success? -/
def ToolResult.isSuccess : ToolResult → Bool
  | .success _ => true
  | .error _ => false

/-- Shared context passed to every handler (built per turn in
`index.js`). -/
structure Ctx where
  apiKey : String := ""
  teamId : String := ""
  teamKey : String := ""
  issues : List Issue := []
  states : List WState := []
  labels : List Label := []
  projects : List Project := []
  members : List Member := []

/-- Handler monad: external-call log (state) plus JS exceptions
(`throw` = `ExceptT` error).  The log survives a throw, like the real
external world does. -/
abbrev ToolM (α : Type) := ExceptT String (StateM (List ExtCall)) α

/-- Record an external call and produce its oracle result (or propagate
the exception it throws). -/
def callExt {α : Type} (c : ExtCall) (res : Except String α) : ToolM α := do
  modify (fun l => l ++ [c])
  match res with
  | .ok a => pure a
  | .error e => throw e

/-- `findIssue` (`tools.js` lines 252-255): uppercase the requested
identifier, then exact match against stored identifiers. -/
def findIssue (identifier : String) (issues : List Issue) : Option Issue :=
  let upper := jsToUpper identifier
  issues.find? (fun i => i.identifier == upper)

/-- Error text for an unresolved issue identifier. -/
def issueNotFoundMsg (identifier : String) : String :=
  "Issue " ++ identifier ++ " not found in active issues."

/-- The case-insensitive exact state match shared by `handleUpdateStatus`
and `handleCreateIssue`. -/
def matchState (states : List WState) (status : String) : Option WState :=
  states.find? (fun s => jsToLower s.name == jsToLower status)

/-- `handleUpdateStatus` (`tools.js` lines 257-276). -/
def handleUpdateStatus (ext : ExtCalls) (input : ToolInput) (ctx : Ctx) :
    ToolM ToolResult := do
  match findIssue input.issue_identifier ctx.issues with
  | none => pure (.error (issueNotFoundMsg input.issue_identifier))
  | some issue =>
    match matchState ctx.states input.status with
    | none =>
      pure (.error ("State \"" ++ input.status ++ "\" not found. Available: "
        ++ String.intercalate ", " (ctx.states.map WState.name)))
    | some state => do
      let updated ← callExt (.updateIssue issue.id { stateId := some state.id })
        (ext.updateIssue issue.id { stateId := some state.id })
      pure (.success (.statusUpdate updated.identifier updated.title
        updated.stateName))

/-- `handleUpdatePriority` (`tools.js` lines 278-289). -/
def handleUpdatePriority (ext : ExtCalls) (input : ToolInput) (ctx : Ctx) :
    ToolM ToolResult := do
  match findIssue input.issue_identifier ctx.issues with
  | none => pure (.error (issueNotFoundMsg input.issue_identifier))
  | some issue => do
    let updated ← callExt (.updateIssue issue.id { priority := input.priority })
      (ext.updateIssue issue.id { priority := input.priority })
    pure (.success (.priorityUpdate updated.identifier updated.title
      updated.priorityLabel))

/-- `handleAddComment` (`tools.js` lines 291-301). -/
def handleAddComment (ext : ExtCalls) (input : ToolInput) (ctx : Ctx) :
    ToolM ToolResult := do
  match findIssue input.issue_identifier ctx.issues with
  | none => pure (.error (issueNotFoundMsg input.issue_identifier))
  | some issue => do
    let comment ← callExt (.createComment issue.id input.comment)
      (ext.createComment issue.id input.comment)
    pure (.success (.commentAdd issue.identifier
      (String.mk (comment.body.data.take 100))))

/-- `handleAddLabel` (`tools.js` lines 303-333): find or create the
label, then append it to the issue only if it is not already applied. -/
def handleAddLabel (ext : ExtCalls) (input : ToolInput) (ctx : Ctx) :
    ToolM ToolResult := do
  match findIssue input.issue_identifier ctx.issues with
  | none => pure (.error (issueNotFoundMsg input.issue_identifier))
  | some issue => do
    let label ←
      match ctx.labels.find?
          (fun l => jsToLower l.name == jsToLower input.label_name) with
      | some l => pure l
      | none =>
        callExt (.createLabel ctx.teamId input.label_name)
          (ext.createLabel ctx.teamId input.label_name)
    let currentLabelIds := issue.labels.map Label.id
    if currentLabelIds.contains label.id then
      pure (.success (.labelAlready (issue.identifier ++ " already has label \""
        ++ label.name ++ "\"")))
    else do
      let newIds := currentLabelIds ++ [label.id]
      let updated ← callExt (.updateIssue issue.id { labelIds := some newIds })
        (ext.updateIssue issue.id { labelIds := some newIds })
      pure (.success (.labelAdd updated.identifier updated.labelNames))

/-- The case-insensitive substring project match of `handleCreateIssue`. -/
def matchProject (projects : List Project) (project_name : String) :
    Option Project :=
  projects.find? (fun p => jsIncludes (jsToLower p.name) (jsToLower project_name))

/-- The resolved project id of `handleCreateIssue` (`tools.js` lines
346-355): only looked up when a `project_name` was given; an unmatched
name resolves to nothing. -/
def resolvedProjectId (input : ToolInput) (ctx : Ctx) : Option String :=
  if input.project_name ≠ "" then
    (matchProject ctx.projects input.project_name).map Project.id
  else none

/-- The `createInput` object built by `handleCreateIssue`
(`tools.js` lines 336-363): optional fields are added only when present,
the project and initial state only when their lookup succeeded. -/
def createIssueInput (input : ToolInput) (ctx : Ctx) : CreateInput :=
  let ci : CreateInput := { teamId := ctx.teamId, title := input.title }
  let ci := if input.description ≠ "" then
      { ci with description := some input.description } else ci
  let ci := match input.priority with
    | some p => { ci with priority := some p }
    | none => ci
  let ci := if input.due_date ≠ "" then
      { ci with dueDate := some input.due_date } else ci
  let ci := match resolvedProjectId input ctx with
    | some pid => { ci with projectId := some pid }
    | none => ci
  let ci := if input.status ≠ "" then
      match matchState ctx.states input.status with
      | some state => { ci with stateId := some state.id }
      | none => ci
    else ci
  ci

/-- The `subInput` object built for one subtask (`tools.js` lines
379-387): inherits the team, the parent id, and the parent's resolved
project id (when any). -/
def subIssueInput (ctx : Ctx) (parentId : String) (projectId : Option String)
    (sub : Subtask) : CreateInput :=
  let subInput : CreateInput :=
    { teamId := ctx.teamId, title := sub.title, parentId := some parentId }
  let subInput := if sub.description ≠ "" then
      { subInput with description := some sub.description } else subInput
  let subInput := match sub.priority with
    | some p => { subInput with priority := some p }
    | none => subInput
  let subInput := if sub.due_date ≠ "" then
      { subInput with dueDate := some sub.due_date } else subInput
  let subInput := match projectId with
    | some pid => { subInput with projectId := some pid }
    | none => subInput
  subInput

/-- `handleCreateIssue` (`tools.js` lines 335-400): build the create
input, resolving the optional project (substring match) and initial
state (exact match) leniently — an unresolved reference is silently
dropped; then create the parent and each subtask sequentially. -/
def handleCreateIssue (ext : ExtCalls) (input : ToolInput) (ctx : Ctx) :
    ToolM ToolResult := do
  let ci := createIssueInput input ctx
  let projectId := resolvedProjectId input ctx
  let parentIssue ← callExt (.createIssue ci) (ext.createIssue ci)
  if input.subtasks ≠ [] then do
    let subtaskResults ← input.subtasks.mapM (fun sub => do
      let subInput := subIssueInput ctx parentIssue.id projectId sub
      let subIssue ← callExt (.createIssue subInput) (ext.createIssue subInput)
      pure (subIssue.identifier, subIssue.title, subIssue.dueDate))
    pure (.success (.issueCreate parentIssue.identifier parentIssue.title
      parentIssue.url parentIssue.dueDate (some subtaskResults)))
  else
    pure (.success (.issueCreate parentIssue.identifier parentIssue.title
      parentIssue.url parentIssue.dueDate none))

/-- `handleCreateProject` (`tools.js` lines 402-410). -/
def handleCreateProject (ext : ExtCalls) (input : ToolInput) (ctx : Ctx) :
    ToolM ToolResult := do
  let descr := if input.description ≠ "" then some input.description else none
  let project ← callExt (.createProject input.name [ctx.teamId] descr)
    (ext.createProject input.name [ctx.teamId] descr)
  pure (.success (.projectCreate project.name project.id))

/-- `handleAssignIssue` (`tools.js` lines 412-435): fuzzy member match
on name or display name. -/
def handleAssignIssue (ext : ExtCalls) (input : ToolInput) (ctx : Ctx) :
    ToolM ToolResult := do
  match findIssue input.issue_identifier ctx.issues with
  | none => pure (.error (issueNotFoundMsg input.issue_identifier))
  | some issue =>
    let nameLower := jsToLower input.assignee_name
    match ctx.members.find? (fun m =>
        (match m.name with
         | some n => jsIncludes (jsToLower n) nameLower
         | none => false) ||
        (match m.displayName with
         | some n => jsIncludes (jsToLower n) nameLower
         | none => false)) with
    | none =>
      pure (.error ("Team member \"" ++ input.assignee_name
        ++ "\" not found. Available: "
        ++ String.intercalate ", " (ctx.members.map (fun m => m.name.getD ""))))
    | some member => do
      let updated ← callExt
        (.updateIssue issue.id { assigneeId := some member.id })
        (ext.updateIssue issue.id { assigneeId := some member.id })
      pure (.success (.assign updated.identifier updated.title
        updated.assigneeName))

/-- `handleUpdateDueDate` (`tools.js` lines 437-451): empty/blank input
clears the due date (sends `null`). -/
def handleUpdateDueDate (ext : ExtCalls) (input : ToolInput) (ctx : Ctx) :
    ToolM ToolResult := do
  match findIssue input.issue_identifier ctx.issues with
  | none => pure (.error (issueNotFoundMsg input.issue_identifier))
  | some issue => do
    let dueDate : Option String :=
      if input.due_date ≠ "" ∧ input.due_date.trim ≠ "" then
        some input.due_date
      else none
    let updated ← callExt (.updateIssue issue.id { dueDate := some dueDate })
      (ext.updateIssue issue.id { dueDate := some dueDate })
    pure (.success (.dueDateUpdate updated.identifier updated.title
      (updated.dueDate.getD "cleared")))

/-- The tool names `executeTool` dispatches on. -/
def knownTools : List String :=
  ["update_issue_status", "update_issue_priority", "add_comment", "add_label",
   "create_issue", "create_project", "assign_issue", "update_due_date"]

/-- The `switch` inside the `try` of `executeTool`
(`tools.js` lines 225-244). -/
def dispatchTool (ext : ExtCalls) (toolName : String) (input : ToolInput)
    (ctx : Ctx) : ToolM ToolResult :=
  match toolName with
  | "update_issue_status" => handleUpdateStatus ext input ctx
  | "update_issue_priority" => handleUpdatePriority ext input ctx
  | "add_comment" => handleAddComment ext input ctx
  | "add_label" => handleAddLabel ext input ctx
  | "create_issue" => handleCreateIssue ext input ctx
  | "create_project" => handleCreateProject ext input ctx
  | "assign_issue" => handleAssignIssue ext input ctx
  | "update_due_date" => handleUpdateDueDate ext input ctx
  | _ => pure (.error ("Unknown tool: " ++ toolName))

/-- `executeTool` (`tools.js` lines 223-248): run the dispatch, catch
any thrown exception and wrap it as an error result.  Returns the result
together with the log of external mutations that were issued. -/
def executeTool (ext : ExtCalls) (toolName : String) (input : ToolInput)
    (ctx : Ctx) : ToolResult × List ExtCall :=
  match (dispatchTool ext toolName input ctx).run.run [] with
  | (.ok r, log) => (r, log)
  | (.error e, log) =>
    (.error ("Tool \"" ++ toolName ++ "\" failed: " ++ e), log)

/- ───────────────────── Agent loop & history (agent.js) ─────────────────── -/

/-- Iteration ceiling of the tool-use loop (`agent.js` line 31). -/
def MAX_ITERATIONS : Nat := 10

/-- Fallback final text (`agent.js` line 62). -/
def FALLBACK_TEXT : String :=
  "Done — but I couldn't generate a response. Something might be off."

/-- One content block of a model response. -/
inductive ContentBlock where
  | text (t : String)
  | toolUse (id : String) (name : String) (input : ToolInput)
deriving DecidableEq, Repr

/-- A model response: stop reason plus content blocks. -/
structure Response where
  stopReason : String
  content : List ContentBlock
deriving DecidableEq, Repr

/-- The text segments of a response, in order. -/
def textSegments (r : Response) : List String :=
  r.content.filterMap (fun b =>
    match b with
    | .text t => some t
    | .toolUse _ _ _ => none)

/-- Final-text extraction (`agent.js` lines 59-62): newline-join the
text blocks; JS `|| fallback` substitutes the fallback exactly when the
joined string is empty. -/
def extractFinalText (r : Response) : String :=
  let joined := String.intercalate "\n" (textSegments r)
  if joined = "" then FALLBACK_TEXT else joined

/-- The `while` loop of `runAgent` (`agent.js` lines 33-56) over an
abstract response sequence `oracle` (`oracle k` is the response of the
k-th Claude call; message threading and tool execution feed the next
call and are absorbed into the oracle).  `fuel` is
`MAX_ITERATIONS - iterations`, so the loop is structural; returns the
final response and the iteration count. -/
def agentLoopAux (oracle : Nat → Response) : Nat → Nat → Response × Nat
  | 0, i => (oracle i, i)
  | fuel + 1, i =>
    let r := oracle i
    if r.stopReason = "tool_use" then agentLoopAux oracle fuel (i + 1)
    else (r, i)

/-- `runAgent`, observable part: final text and number of tool-use
iterations executed. -/
def runAgentModel (oracle : Nat → Response) : String × Nat :=
  let r := agentLoopAux oracle MAX_ITERATIONS 0
  (extractFinalText r.1, r.2)

/-- History cap (`agent.js` line 7): keep last 20 exchanges
(40 messages). -/
def MAX_HISTORY_PAIRS : Nat := 20

/-- Conversation roles. -/
inductive Role where
  | user
  | assistant
deriving DecidableEq, Repr

/-- One stored conversation turn. -/
structure Turn where
  role : Role
  content : String
deriving DecidableEq, Repr

/-- JS `Array.prototype.slice(-n)`: the last `n` elements (for `n > 0`). -/
def sliceLast (n : Nat) (l : List Turn) : List Turn := l.drop (l.length - n)

/-- `saveHistory` (`agent.js` lines 147-156): append the user and
assistant turns, trim to the last `MAX_HISTORY_PAIRS * 2` entries, and
overwrite the stored history with the result. -/
def saveHistory (existing : List Turn) (userMsg assistantMsg : String) :
    List Turn :=
  sliceLast (MAX_HISTORY_PAIRS * 2)
    (existing ++ [{ role := .user, content := userMsg },
                  { role := .assistant, content := assistantMsg }])

/-- The two turns of one exchange. -/
def pairTurns (p : String × String) : List Turn :=
  [{ role := .user, content := p.1 }, { role := .assistant, content := p.2 }]

/-- Replay a sequence of exchanges through `saveHistory`, starting from
an empty store. -/
def appendAll (pairs : List (String × String)) : List Turn :=
  pairs.foldl (fun h p => saveHistory h p.1 p.2) []

/- ───────────────────── Auxiliary predicates for claims ──────────────────── -/

/-- The head of this character list, if any, is not a decimal digit
(used to delimit a serialized number). -/
def headNotDigit (l : List Char) : Prop :=
  ∀ c, l.head? = some c → isDigitCh c = false

/-- `j` is `i` with its label list reordered (all other fields kept). -/
def LabelReorder (i j : Issue) : Prop :=
  ∃ ls, j = { i with labels := ls } ∧ List.Perm ls i.labels

/-- `j` differs from `i` in (at least) one of the fields tracked by the
fingerprint — status name, priority, assignee name, project name, label
name multiset, or due date — while keeping the identifier. -/
def trackedChange (i j : Issue) : Prop :=
  j.identifier = i.identifier ∧
    (j.state.map WState.name ≠ i.state.map WState.name ∨
     j.priority ≠ i.priority ∨
     j.assignee.map NamedRef.name ≠ i.assignee.map NamedRef.name ∨
     j.project.map NamedRef.name ≠ i.project.map NamedRef.name ∨
     ¬ List.Perm (j.labels.map Label.name) (i.labels.map Label.name) ∨
     j.dueDate ≠ i.dueDate)

/- ══════════════════════════════ Theorems ═══════════════════════════════ -/

/- ── Character-level facts about the JSON escape ── -/

theorem charToNat_inj (a b : Char) (h : a.toNat = b.toNat) : a = b := by
  have : a.val = b.val := by
    unfold Char.toNat at h
    exact UInt32.toNat.inj h
  exact Char.ext this

theorem charOfNat_toNat (n : Nat) (h : n < 55296) : (Char.ofNat n).toNat = n := by
  unfold Char.ofNat
  rw [dif_pos (Or.inl h)]
  unfold Char.ofNatAux
  rfl

theorem hexChar_inj (a b : Nat) (ha : a < 16) (hb : b < 16)
    (h : hexChar a = hexChar b) : a = b := by
  have ht := congrArg Char.toNat h
  unfold hexChar at ht
  split_ifs at ht <;>
    (rw [charOfNat_toNat, charOfNat_toNat] at ht <;> omega)

theorem digitChar_toNat (n : Nat) (h : n < 10) :
    (digitChar n).toNat = 48 + n := by
  unfold digitChar
  exact charOfNat_toNat (48 + n) (by omega)

theorem digitChar_isDigit (n : Nat) (h : n < 10) :
    isDigitCh (digitChar n) = true := by
  have := digitChar_toNat n h
  unfold isDigitCh
  rw [this]
  simp
  omega

theorem escChar_class (c : Char) :
    (c = '"' ∧ escChar c = ['\\', '"']) ∨
    (c = '\\' ∧ escChar c = ['\\', '\\']) ∨
    (32 ≤ c.toNat ∧ c ≠ '"' ∧ c ≠ '\\' ∧ escChar c = [c]) ∨
    (c = '\x08' ∧ escChar c = ['\\', 'b']) ∨
    (c = '\x09' ∧ escChar c = ['\\', 't']) ∨
    (c = '\x0a' ∧ escChar c = ['\\', 'n']) ∨
    (c = '\x0c' ∧ escChar c = ['\\', 'f']) ∨
    (c = '\x0d' ∧ escChar c = ['\\', 'r']) ∨
    (c.toNat < 32 ∧
      escChar c = ['\\', 'u', '0', '0', hexChar (c.toNat / 16),
        hexChar (c.toNat % 16)]) := by
  unfold escChar
  split_ifs with h1 h2 h3 h4 h5 h6 h7 h8
  · exact Or.inl ⟨h1, rfl⟩
  · exact Or.inr (Or.inl ⟨h2, rfl⟩)
  · exact Or.inr (Or.inr (Or.inl ⟨h3, h1, h2, rfl⟩))
  · exact Or.inr (Or.inr (Or.inr (Or.inl ⟨h4, rfl⟩)))
  · exact Or.inr (Or.inr (Or.inr (Or.inr (Or.inl ⟨h5, rfl⟩))))
  · exact Or.inr (Or.inr (Or.inr (Or.inr (Or.inr (Or.inl ⟨h6, rfl⟩)))))
  · exact Or.inr (Or.inr (Or.inr (Or.inr (Or.inr (Or.inr (Or.inl ⟨h7, rfl⟩))))))
  · exact Or.inr (Or.inr (Or.inr (Or.inr (Or.inr (Or.inr (Or.inr
      (Or.inl ⟨h8, rfl⟩)))))))
  · exact Or.inr (Or.inr (Or.inr (Or.inr (Or.inr (Or.inr (Or.inr (Or.inr
      ⟨by omega, rfl⟩)))))))

theorem escChar_head (c : Char) :
    (∃ t, escChar c = '\\' :: t) ∨ (escChar c = [c] ∧ c ≠ '"' ∧ c ≠ '\\') := by
  rcases escChar_class c with ⟨-, he⟩|⟨-, he⟩|⟨-, e1, e2, he⟩|⟨-, he⟩|⟨-, he⟩|
    ⟨-, he⟩|⟨-, he⟩|⟨-, he⟩|⟨-, he⟩
  all_goals first
    | exact Or.inl ⟨_, he⟩
    | exact Or.inr ⟨he, e1, e2⟩

theorem escChar_cancel (c1 c2 : Char) (x1 x2 : List Char)
    (h : escChar c1 ++ x1 = escChar c2 ++ x2) : c1 = c2 ∧ x1 = x2 := by
  have hc : c1 = c2 := by
    rcases escChar_class c1 with ⟨e, he⟩|⟨e, he⟩|⟨e1, e2, e3, he⟩|⟨e, he⟩|
      ⟨e, he⟩|⟨e, he⟩|⟨e, he⟩|⟨e, he⟩|⟨e1, he⟩ <;>
    rcases escChar_class c2 with ⟨f, hf⟩|⟨f, hf⟩|⟨f1, f2, f3, hf⟩|⟨f, hf⟩|
      ⟨f, hf⟩|⟨f, hf⟩|⟨f, hf⟩|⟨f, hf⟩|⟨f1, hf⟩ <;>
    rw [he, hf] at h <;> simp at h <;>
    first
      | exact e.trans f.symm
      | exact h.1
      | exact h
      | exact absurd h.1 e3
      | exact absurd h.1.symm f3
      | exact absurd h e3
      | exact absurd h.symm f3
      | (refine charToNat_inj c1 c2 ?_
         obtain ⟨hdiv, hmod, -⟩ := h
         have g1 := hexChar_inj (c1.toNat / 16) (c2.toNat / 16)
           (by omega) (by omega) hdiv
         have g2 := hexChar_inj (c1.toNat % 16) (c2.toNat % 16)
           (by omega) (by omega) hmod
         omega)
  subst hc
  exact ⟨rfl, List.append_cancel_left h⟩

/- ── String- and number-level cancellation ── -/

theorem escStr_nil : escStr [] = [] := rfl

theorem escStr_cons (c : Char) (t : List Char) :
    escStr (c :: t) = escChar c ++ escStr t := by
  simp [escStr]

theorem escStr_cancel (s1 : List Char) :
    ∀ (s2 r1 r2 : List Char),
      escStr s1 ++ '"' :: r1 = escStr s2 ++ '"' :: r2 → s1 = s2 ∧ r1 = r2 := by
  induction s1 with
  | nil =>
    intro s2 r1 r2 h
    cases s2 with
    | nil => simpa [escStr_nil] using h
    | cons d u =>
      exfalso
      rw [escStr_nil, escStr_cons, List.nil_append, List.append_assoc] at h
      rcases escChar_head d with ⟨t, ht⟩ | ⟨ht, hq, hb⟩ <;> rw [ht] at h <;>
        simp at h
      exact hq h.1.symm
  | cons c t ih =>
    intro s2 r1 r2 h
    cases s2 with
    | nil =>
      exfalso
      rw [escStr_nil, escStr_cons, List.nil_append, List.append_assoc] at h
      rcases escChar_head c with ⟨tt, ht⟩ | ⟨ht, hq, hb⟩ <;> rw [ht] at h <;>
        simp at h
      first
        | exact hq h.1.symm
        | exact hq h.1
    | cons d u =>
      rw [escStr_cons, escStr_cons, List.append_assoc, List.append_assoc] at h
      obtain ⟨hc, h2⟩ := escChar_cancel c d (escStr t ++ '"' :: r1)
        (escStr u ++ '"' :: r2) h
      obtain ⟨ht, hr⟩ := ih u r1 r2 h2
      exact ⟨by rw [hc, ht], hr⟩

theorem serStr_cancel (a b : String) (r1 r2 : List Char)
    (h : serStr a ++ r1 = serStr b ++ r2) : a = b ∧ r1 = r2 := by
  unfold serStr at h
  rw [List.cons_append, List.cons_append, List.append_assoc,
    List.append_assoc] at h
  simp only [List.cons.injEq, List.singleton_append, true_and] at h
  obtain ⟨hd, hr⟩ := escStr_cancel a.data b.data r1 r2 h
  exact ⟨String.ext hd, hr⟩

theorem natChars_digits (n : Nat) : ∀ c ∈ natChars n, isDigitCh c = true := by
  induction n using Nat.strong_induction_on with
  | _ n ih =>
    intro c hc
    rw [natChars] at hc
    by_cases h : n < 10
    · rw [if_pos h] at hc
      simp at hc
      rw [hc]
      exact digitChar_isDigit n h
    · rw [if_neg h] at hc
      rcases List.mem_append.mp hc with h1 | h2
      · exact ih (n / 10) (Nat.div_lt_self (by omega) (by omega)) c h1
      · simp at h2
        rw [h2]
        exact digitChar_isDigit (n % 10) (Nat.mod_lt n (by omega))

theorem natChars_ne_nil (n : Nat) : natChars n ≠ [] := by
  rw [natChars]
  by_cases h : n < 10
  · rw [if_pos h]; simp
  · rw [if_neg h]; simp

theorem charsVal_aux (n : Nat) :
    ∀ a, List.foldl (fun acc c => 10 * acc + (c.toNat - 48)) a (natChars n) =
      a * 10 ^ (natChars n).length + n := by
  induction n using Nat.strong_induction_on with
  | _ n ih =>
    intro a
    rw [natChars]
    by_cases h : n < 10
    · rw [if_pos h]
      simp [digitChar_toNat n h]
      omega
    · rw [if_neg h]
      rw [List.foldl_append, ih (n / 10) (Nat.div_lt_self (by omega) (by omega))]
      simp [digitChar_toNat (n % 10) (Nat.mod_lt n (by omega)),
        List.length_append, pow_succ]
      rw [← mul_assoc]
      generalize a * 10 ^ (natChars (n / 10)).length = m
      omega

theorem charsVal_natChars (n : Nat) : charsVal (natChars n) = n := by
  have := charsVal_aux n 0
  simpa [charsVal] using this

theorem natChars_inj (m n : Nat) (h : natChars m = natChars n) : m = n := by
  have := congrArg charsVal h
  rwa [charsVal_natChars, charsVal_natChars] at this

theorem digits_munch (d1 : List Char) :
    ∀ (d2 r1 r2 : List Char), (∀ c ∈ d1, isDigitCh c = true) →
      (∀ c ∈ d2, isDigitCh c = true) → headNotDigit r1 → headNotDigit r2 →
      d1 ++ r1 = d2 ++ r2 → d1 = d2 := by
  induction d1 with
  | nil =>
    intro d2 r1 r2 _ hd2 hr1 _ h
    cases d2 with
    | nil => rfl
    | cons c t =>
      exfalso
      rw [List.nil_append, List.cons_append] at h
      have hc : r1.head? = some c := by rw [h]; rfl
      have := hr1 c hc
      have := hd2 c (by simp)
      simp_all
  | cons c t ih =>
    intro d2 r1 r2 hd1 hd2 hr1 hr2 h
    cases d2 with
    | nil =>
      exfalso
      rw [List.nil_append, List.cons_append] at h
      have hc : r2.head? = some c := by rw [← h]; rfl
      have := hr2 c hc
      have := hd1 c (by simp)
      simp_all
    | cons d u =>
      rw [List.cons_append, List.cons_append] at h
      simp only [List.cons.injEq] at h
      obtain ⟨hc, h2⟩ := h
      rw [hc, ih u r1 r2 (fun x hx => hd1 x (by simp [hx]))
        (fun x hx => hd2 x (by simp [hx])) hr1 hr2 h2]

theorem natChars_cancel (m n : Nat) (r1 r2 : List Char)
    (h : natChars m ++ r1 = natChars n ++ r2)
    (h1 : headNotDigit r1) (h2 : headNotDigit r2) : m = n ∧ r1 = r2 := by
  have hd := digits_munch (natChars m) (natChars n) r1 r2
    (natChars_digits m) (natChars_digits n) h1 h2 h
  refine ⟨natChars_inj m n hd, ?_⟩
  rw [hd] at h
  exact List.append_cancel_left h

/- ── Object- and array-level cancellation ── -/

theorem headNotDigit_cons (c : Char) (l : List Char) (h : isDigitCh c = false) :
    headNotDigit (c :: l) := by
  intro x hx
  simp at hx
  rw [← hx]
  exact h

theorem serStr_head (s : String) :
    ∃ t, serStr s = '"' :: t ∧ ('"' : Char) ≠ ']' ∧ ('"' : Char) ≠ ',' :=
  ⟨escStr s.data ++ ['"'], rfl, by decide, by decide⟩

theorem commaJoin_cancel {α : Type} (f : α → List Char)
    (hf : ∀ a b r1 r2, f a ++ r1 = f b ++ r2 → a = b ∧ r1 = r2)
    (hhead : ∀ a, ∃ c t, f a = c :: t ∧ c ≠ ']' ∧ c ≠ ',') :
    ∀ (l1 l2 : List α) (r1 r2 : List Char),
      commaJoin (l1.map f) ++ ']' :: r1 = commaJoin (l2.map f) ++ ']' :: r2 →
      l1 = l2 ∧ r1 = r2 := by
  intro l1
  induction l1 with
  | nil =>
    intro l2 r1 r2 h
    cases l2 with
    | nil => simpa [commaJoin] using h
    | cons y ys =>
      exfalso
      obtain ⟨c, t, hct, hc1, hc2⟩ := hhead y
      cases ys with
      | nil =>
        simp only [List.map_cons, List.map_nil, commaJoin, List.nil_append,
          hct, List.cons_append] at h
        simp at h
        exact hc1 h.1.symm
      | cons z zs =>
        simp only [List.map_cons, commaJoin, List.nil_append, hct,
          List.cons_append, List.append_assoc] at h
        simp at h
        exact hc1 h.1.symm
  | cons x xs ih =>
    intro l2 r1 r2 h
    cases l2 with
    | nil =>
      exfalso
      obtain ⟨c, t, hct, hc1, hc2⟩ := hhead x
      cases xs with
      | nil =>
        simp only [List.map_cons, List.map_nil, commaJoin, List.nil_append,
          hct, List.cons_append] at h
        simp at h
        exact hc1 h.1
      | cons z zs =>
        simp only [List.map_cons, commaJoin, List.nil_append, hct,
          List.cons_append, List.append_assoc] at h
        simp at h
        exact hc1 h.1
    | cons y ys =>
      cases xs with
      | nil =>
        cases ys with
        | nil =>
          simp only [List.map_cons, List.map_nil, commaJoin] at h
          obtain ⟨hxy, hr⟩ := hf x y (']' :: r1) (']' :: r2) h
          simp at hr
          exact ⟨by rw [hxy], hr⟩
        | cons z zs =>
          exfalso
          simp only [List.map_cons, List.map_nil, commaJoin,
            List.append_assoc] at h
          obtain ⟨-, hr⟩ := hf x y (']' :: r1)
            (',' :: (commaJoin (List.map f (z :: zs)) ++ ']' :: r2)) h
          simp at hr
      | cons w ws =>
        cases ys with
        | nil =>
          exfalso
          simp only [List.map_cons, List.map_nil, commaJoin,
            List.append_assoc] at h
          obtain ⟨-, hr⟩ := hf x y
            (',' :: (commaJoin (List.map f (w :: ws)) ++ ']' :: r1))
            (']' :: r2) h
          simp at hr
        | cons z zs =>
          simp only [List.map_cons, commaJoin, List.append_assoc] at h
          obtain ⟨hxy, hr⟩ := hf x y
            (',' :: (commaJoin (List.map f (w :: ws)) ++ ']' :: r1))
            (',' :: (commaJoin (List.map f (z :: zs)) ++ ']' :: r2)) h
          simp only [List.cons.injEq, true_and] at hr
          obtain ⟨hxs, hrr⟩ := ih (z :: zs) r1 r2 hr
          exact ⟨by rw [hxy, hxs], hrr⟩

theorem statusField_cancel (o1 o2 : Option String) (x1 x2 : List Char)
    (h : optField keyStatus o1 ++ (keyPriority ++ x1) =
      optField keyStatus o2 ++ (keyPriority ++ x2)) :
    o1 = o2 ∧ x1 = x2 := by
  rcases o1 with - | s1 <;> rcases o2 with - | s2
  · refine ⟨rfl, ?_⟩
    simp only [optField, List.nil_append] at h
    exact List.append_cancel_left h
  · simp [optField, keyStatus, keyPriority, List.cons_append,
      List.append_assoc] at h
  · simp [optField, keyStatus, keyPriority, List.cons_append,
      List.append_assoc] at h
  · simp only [optField, keyStatus, List.cons_append, List.append_assoc,
      List.cons.injEq, true_and] at h
    obtain ⟨hs, hr⟩ := serStr_cancel s1 s2 (keyPriority ++ x1)
      (keyPriority ++ x2) h
    exact ⟨by rw [hs], List.append_cancel_left hr⟩

theorem projectField_cancel (o1 o2 : Option String) (x1 x2 : List Char)
    (h : optField keyProject o1 ++ (keyLabels ++ x1) =
      optField keyProject o2 ++ (keyLabels ++ x2)) :
    o1 = o2 ∧ x1 = x2 := by
  rcases o1 with - | s1 <;> rcases o2 with - | s2
  · refine ⟨rfl, ?_⟩
    simp only [optField, List.nil_append] at h
    exact List.append_cancel_left h
  · simp [optField, keyProject, keyLabels, List.cons_append,
      List.append_assoc] at h
  · simp [optField, keyProject, keyLabels, List.cons_append,
      List.append_assoc] at h
  · simp only [optField, keyProject, List.cons_append, List.append_assoc,
      List.cons.injEq, true_and] at h
    obtain ⟨hs, hr⟩ := serStr_cancel s1 s2 (keyLabels ++ x1)
      (keyLabels ++ x2) h
    exact ⟨by rw [hs], List.append_cancel_left hr⟩

theorem afterPriority_cancel (a1 a2 pj1 pj2 : Option String)
    (y1 y2 : List Char)
    (h : optField keyAssignee a1 ++ (optField keyProject pj1 ++ (keyLabels ++ y1)) =
      optField keyAssignee a2 ++ (optField keyProject pj2 ++ (keyLabels ++ y2))) :
    a1 = a2 ∧ pj1 = pj2 ∧ y1 = y2 := by
  rcases a1 with - | s1 <;> rcases a2 with - | s2
  · simp only [optField, List.nil_append] at h
    obtain ⟨hp, hy⟩ := projectField_cancel pj1 pj2 y1 y2 h
    exact ⟨rfl, hp, hy⟩
  · rcases pj1 with - | t1 <;>
      simp [optField, keyAssignee, keyProject, keyLabels, List.cons_append,
        List.append_assoc] at h
  · rcases pj2 with - | t2 <;>
      simp [optField, keyAssignee, keyProject, keyLabels, List.cons_append,
        List.append_assoc] at h
  · simp only [optField, keyAssignee, List.cons_append, List.append_assoc,
      List.cons.injEq, true_and] at h
    obtain ⟨hs, hr⟩ := serStr_cancel s1 s2
      (optField keyProject pj1 ++ (keyLabels ++ y1))
      (optField keyProject pj2 ++ (keyLabels ++ y2)) h
    obtain ⟨hp, hy⟩ := projectField_cancel pj1 pj2 y1 y2 hr
    exact ⟨by rw [hs], hp, hy⟩

theorem afterPriority_headNotDigit (a pj : Option String) (t : List Char) :
    headNotDigit (optField keyAssignee a ++ (optField keyProject pj ++ (keyLabels ++ t))) := by
  rcases a with - | s <;> rcases pj with - | p <;>
    (intro c hc
     simp [optField, keyAssignee, keyProject, keyLabels, serStr] at hc
     rw [← hc]
     decide)

theorem serNorm_cancel (n1 n2 : NormIssue) (r1 r2 : List Char)
    (h : serNorm n1 ++ r1 = serNorm n2 ++ r2) : n1 = n2 ∧ r1 = r2 := by
  obtain ⟨i1, s1, p1, a1, pj1, lb1, d1⟩ := n1
  obtain ⟨i2, s2, p2, a2, pj2, lb2, d2⟩ := n2
  simp only [serNorm, keyId, List.cons_append, List.nil_append,
    List.append_assoc, List.singleton_append, List.cons.injEq, true_and] at h
  obtain ⟨hi, h⟩ := serStr_cancel i1 i2 _ _ h
  obtain ⟨hs, h⟩ := statusField_cancel s1 s2 _ _ h
  obtain ⟨hp, h⟩ := natChars_cancel p1 p2 _ _ h
    (afterPriority_headNotDigit a1 pj1 _) (afterPriority_headNotDigit a2 pj2 _)
  obtain ⟨ha, hpj, h⟩ := afterPriority_cancel a1 a2 pj1 pj2 _ _ h
  simp only [List.cons.injEq, true_and] at h
  obtain ⟨hlb, h⟩ := commaJoin_cancel serStr serStr_cancel
    (fun s => ⟨'"', serStr_head s⟩) lb1 lb2 _ _ h
  replace h := List.append_cancel_left h
  rcases d1 with - | e1 <;> rcases d2 with - | e2
  · simp only [nullChars, List.cons_append, List.nil_append,
      List.cons.injEq, true_and] at h
    exact ⟨by rw [hi, hs, hp, ha, hpj, hlb], h⟩
  · exfalso
    simp only [nullChars, serStr, List.cons_append, List.nil_append,
      List.cons.injEq] at h
    exact absurd h.1 (by decide)
  · exfalso
    simp only [nullChars, serStr, List.cons_append, List.nil_append,
      List.cons.injEq] at h
    exact absurd h.1 (by decide)
  · obtain ⟨he, h⟩ := serStr_cancel e1 e2 _ _ h
    simp only [List.cons.injEq, true_and] at h
    exact ⟨by rw [hi, hs, hp, ha, hpj, hlb, he], h⟩

theorem serNorm_head (n : NormIssue) :
    ∃ c t, serNorm n = c :: t ∧ c ≠ ']' ∧ c ≠ ',' :=
  ⟨'{', _, rfl, by decide, by decide⟩

theorem serNormList_inj (l1 l2 : List NormIssue)
    (h : serNormList l1 = serNormList l2) : l1 = l2 := by
  unfold serNormList at h
  simp only [List.cons.injEq, true_and] at h
  have h2 : commaJoin (l1.map serNorm) ++ ']' :: ([] : List Char) =
      commaJoin (l2.map serNorm) ++ ']' :: ([] : List Char) := by
    simpa using h
  exact (commaJoin_cancel serNorm serNorm_cancel serNorm_head l1 l2 [] [] h2).1

theorem serializeIssues_inj (i1 i2 : List Issue)
    (h : serializeIssues i1 = serializeIssues i2) :
    normalizedIssues i1 = normalizedIssues i2 := by
  unfold serializeIssues at h
  have hd : serNormList (normalizedIssues i1) = serNormList (normalizedIssues i2) := by
    have := congrArg String.data h
    simpa using this
  exact serNormList_inj _ _ hd

/- ── Sorting: canonical form under permutation ── -/

theorem insertionSort_str_unique (l1 l2 : List String) (hperm : l1.Perm l2) :
    List.insertionSort strLe l1 = List.insertionSort strLe l2 := by
  have s1 := List.sorted_insertionSort strLe l1
  have s2 := List.sorted_insertionSort strLe l2
  have hp : (List.insertionSort strLe l1).Perm (List.insertionSort strLe l2) :=
    ((List.perm_insertionSort strLe l1).trans hperm).trans
      (List.perm_insertionSort strLe l2).symm
  exact List.eq_of_perm_of_sorted hp s1 s2

theorem insertionSort_key_unique (l1 l2 : List NormIssue) (hperm : l1.Perm l2)
    (hnd : (l1.map NormIssue.id).Nodup) :
    List.insertionSort normLe l1 = List.insertionSort normLe l2 := by
  have s1 := List.sorted_insertionSort normLe l1
  have s2 := List.sorted_insertionSort normLe l2
  have hp : (List.insertionSort normLe l1).Perm (List.insertionSort normLe l2) :=
    ((List.perm_insertionSort normLe l1).trans hperm).trans
      (List.perm_insertionSort normLe l2).symm
  have hnd2 : (l2.map NormIssue.id).Nodup :=
    ((hperm.map NormIssue.id).nodup_iff).mp hnd
  have strict : ∀ (l : List NormIssue), List.Sorted normLe (List.insertionSort normLe l) →
      (l.map NormIssue.id).Nodup →
      List.Pairwise (fun a b => normLe a b ∧ a.id ≠ b.id)
        (List.insertionSort normLe l) := by
    intro l hs hn
    have hn2 : ((List.insertionSort normLe l).map NormIssue.id).Nodup := by
      have := (List.perm_insertionSort normLe l).map NormIssue.id
      exact this.nodup_iff.mpr hn
    have hne : List.Pairwise (fun a b : NormIssue => a.id ≠ b.id)
        (List.insertionSort normLe l) := List.pairwise_map.mp hn2
    exact hs.and hne
  letI : IsAntisymm NormIssue (fun a b => normLe a b ∧ a.id ≠ b.id) :=
    ⟨fun a b h1 h2 => absurd (le_antisymm h1.1 h2.1) h1.2⟩
  exact List.eq_of_perm_of_sorted hp (strict l1 s1 hnd) (strict l2 s2 hnd2)

theorem normalizeIssue_labelReorder (i j : Issue) (h : LabelReorder i j) :
    normalizeIssue j = normalizeIssue i := by
  obtain ⟨ls, rfl, hperm⟩ := h
  unfold normalizeIssue
  simp only [NormIssue.mk.injEq, and_true, true_and]
  exact insertionSort_str_unique _ _ (hperm.map Label.name)

theorem trackedChange_norm_ne (i j : Issue) (hc : trackedChange i j) :
    normalizeIssue j ≠ normalizeIssue i := by
  intro heq
  obtain ⟨-, hdisj⟩ := hc
  have hst := congrArg NormIssue.status heq
  have hpr := congrArg NormIssue.priority heq
  have has := congrArg NormIssue.assignee heq
  have hpj := congrArg NormIssue.project heq
  have hlb := congrArg NormIssue.labels heq
  have hdd := congrArg NormIssue.dueDate heq
  simp only [normalizeIssue] at hst hpr has hpj hlb hdd
  rcases hdisj with h | h | h | h | h | h
  · exact h hst
  · exact h hpr
  · exact h has
  · exact h hpj
  · apply h
    have p1 := List.perm_insertionSort strLe (j.labels.map Label.name)
    have p2 : (List.insertionSort strLe (j.labels.map Label.name)).Perm
        (i.labels.map Label.name) := by
      rw [hlb]
      exact List.perm_insertionSort strLe (i.labels.map Label.name)
    exact p1.symm.trans p2
  · exact h hdd

theorem forall₂_labelReorder_map (l m : List Issue)
    (h : List.Forall₂ LabelReorder l m) :
    l.map normalizeIssue = m.map normalizeIssue := by
  induction h with
  | nil => rfl
  | cons hab _ ih =>
    simp only [List.map_cons, List.cons.injEq]
    exact ⟨(normalizeIssue_labelReorder _ _ hab).symm, ih⟩

/- ── Claim theorems ── -/

/-- C3: Fingerprint determinism — for every issue list, reordering the
list (and reordering any issue's labels) leaves `hashIssues` unchanged,
for every digest function: the normalization sorts label names and sorts
the normalized issues by identifier before serializing, so the
serialization (and hence the hash) depends only on the set of issues.
`l` is the original list, `m` is `l` with labels reordered pointwise,
`l'` is a permutation of `m`; identifiers must be distinct (the spec's
snapshot invariant). -/
theorem hashIssues_order_independent (digest : String → String)
    (l m l' : List Issue) (hlab : List.Forall₂ LabelReorder l m)
    (hperm : m.Perm l') (hnd : (l.map Issue.identifier).Nodup) :
    hashIssues digest l' = hashIssues digest l := by
  have hm : l.map normalizeIssue = m.map normalizeIssue :=
    forall₂_labelReorder_map l m hlab
  have hincl : (l.map normalizeIssue).Perm (l'.map normalizeIssue) := by
    rw [hm]
    exact hperm.map normalizeIssue
  have hids : (l.map normalizeIssue).map NormIssue.id = l.map Issue.identifier := by
    rw [List.map_map]
    rfl
  have hsort : normalizedIssues l = normalizedIssues l' := by
    unfold normalizedIssues
    exact insertionSort_key_unique _ _ hincl (by rw [hids]; exact hnd)
  unfold hashIssues serializeIssues
  rw [hsort]

/-- Witness for C3 at a concrete input: two issues, list reversed and
labels of the first swapped, identity digest. -/
theorem hashIssues_order_independent_witness :
    List.Forall₂ LabelReorder
      [{ identifier := "YAK-1",
         labels := [{ id := "l1", name := "a" }, { id := "l2", name := "b" }] },
       { identifier := "YAK-2" }]
      [{ identifier := "YAK-1",
         labels := [{ id := "l2", name := "b" }, { id := "l1", name := "a" }] },
       { identifier := "YAK-2" }] ∧
    List.Perm
      [({ identifier := "YAK-1",
          labels := [{ id := "l2", name := "b" }, { id := "l1", name := "a" }] } : Issue),
       { identifier := "YAK-2" }]
      [{ identifier := "YAK-2" },
       { identifier := "YAK-1",
         labels := [{ id := "l2", name := "b" }, { id := "l1", name := "a" }] }] ∧
    (([{ identifier := "YAK-1",
         labels := [{ id := "l1", name := "a" }, { id := "l2", name := "b" }] },
       ({ identifier := "YAK-2" } : Issue)].map Issue.identifier).Nodup) ∧
    hashIssues (fun s => s)
      [{ identifier := "YAK-2" },
       { identifier := "YAK-1",
         labels := [{ id := "l2", name := "b" }, { id := "l1", name := "a" }] }] =
    hashIssues (fun s => s)
      [{ identifier := "YAK-1",
         labels := [{ id := "l1", name := "a" }, { id := "l2", name := "b" }] },
       { identifier := "YAK-2" }] := by
  refine ⟨?_, ?_, ?_, ?_⟩
  · refine List.Forall₂.cons ?_ (List.Forall₂.cons ?_ List.Forall₂.nil)
    · exact ⟨[{ id := "l2", name := "b" }, { id := "l1", name := "a" }], rfl,
        by decide⟩
    · exact ⟨[], rfl, by decide⟩
  · decide
  · decide
  · exact hashIssues_order_independent (fun s => s) _ _ _
      (List.Forall₂.cons
        ⟨[{ id := "l2", name := "b" }, { id := "l1", name := "a" }], rfl,
          by decide⟩
        (List.Forall₂.cons ⟨[], rfl, by decide⟩ List.Forall₂.nil))
      (by decide) (by decide)

/-- C9: Fingerprint sensitivity — changing a tracked field (status name,
priority, assignee name, project name, label multiset, due date) of one
issue changes the normalized serialization that is hashed, while
changing only the untracked description leaves the fingerprint unchanged
for every digest. -/
theorem fingerprint_sensitivity (digest : String → String)
    (pre post : List Issue) (i j : Issue) :
    (trackedChange i j →
      serializeIssues (pre ++ j :: post) ≠ serializeIssues (pre ++ i :: post)) ∧
    (∀ d, hashIssues digest (pre ++ { i with description := d } :: post) =
      hashIssues digest (pre ++ i :: post)) := by
  constructor
  · intro hc heq
    have hnorm := serializeIssues_inj _ _ heq
    unfold normalizedIssues at hnorm
    have p1 := List.perm_insertionSort normLe ((pre ++ j :: post).map normalizeIssue)
    have p2 : (List.insertionSort normLe ((pre ++ j :: post).map normalizeIssue)).Perm
        ((pre ++ i :: post).map normalizeIssue) := by
      rw [hnorm]
      exact List.perm_insertionSort normLe ((pre ++ i :: post).map normalizeIssue)
    have hperm := p1.symm.trans p2
    rw [List.map_append, List.map_cons, List.map_append, List.map_cons] at hperm
    have h1 := (List.perm_middle.symm.trans hperm).trans List.perm_middle
    have h2 : (normalizeIssue j ::ₘ (↑(pre.map normalizeIssue ++ post.map normalizeIssue) : Multiset NormIssue)) =
        (normalizeIssue i ::ₘ (↑(pre.map normalizeIssue ++ post.map normalizeIssue) : Multiset NormIssue)) := by
      rw [Multiset.cons_coe, Multiset.cons_coe]
      exact Multiset.coe_eq_coe.mpr h1
    exact trackedChange_norm_ne i j hc ((Multiset.cons_inj_left _).mp h2)
  · intro d
    have hmap : (pre ++ { i with description := d } :: post).map normalizeIssue =
        (pre ++ i :: post).map normalizeIssue := by
      rw [List.map_append, List.map_append, List.map_cons, List.map_cons]
      rfl
    unfold hashIssues serializeIssues normalizedIssues
    rw [hmap]

/-- Witness for C9 at a concrete input: a one-issue snapshot whose
priority changes from 1 to 2. -/
theorem fingerprint_sensitivity_witness :
    trackedChange { identifier := "YAK-1", priority := 1 }
      { identifier := "YAK-1", priority := 2 } ∧
    serializeIssues [{ identifier := "YAK-1", priority := 2 }] ≠
      serializeIssues [{ identifier := "YAK-1", priority := 1 }] :=
  ⟨by constructor
      · rfl
      · exact Or.inr (Or.inl (by decide)),
   (fingerprint_sensitivity (fun s => s) [] []
      { identifier := "YAK-1", priority := 1 }
      { identifier := "YAK-1", priority := 2 }).1
    (by constructor
        · rfl
        · exact Or.inr (Or.inl (by decide)))⟩

/-- C1: Cache escalation — starting from a cache record freshly written
with briefing `B` and `unchangedDays = 0`, three consecutive runs whose
fingerprint equals the stored one emit `B`, `B`, then the fixed
escalation string on the third cache-hit run (`unchangedDays` reaches
`STALE_DAYS_THRESHOLD = 3`), while every written record keeps `B` as the
stored briefing text — the escalation string is never persisted. -/
theorem briefing_escalation (digest : String → String)
    (B d0 d1 d2 d3 g1 g2 g3 : String) (issues : List Issue)
    (hne : issues ≠ []) :
    (handleDailyBriefing digest g1 d1 issues
        (some { hash := hashIssues digest issues, briefing := B,
                unchangedDays := 0, lastRun := d0 })).sent = B ∧
    (handleDailyBriefing digest g1 d1 issues
        (some { hash := hashIssues digest issues, briefing := B,
                unchangedDays := 0, lastRun := d0 })).write =
      some { hash := hashIssues digest issues, briefing := B,
             unchangedDays := 1, lastRun := d1 } ∧
    (handleDailyBriefing digest g2 d2 issues
        (some { hash := hashIssues digest issues, briefing := B,
                unchangedDays := 1, lastRun := d1 })).sent = B ∧
    (handleDailyBriefing digest g2 d2 issues
        (some { hash := hashIssues digest issues, briefing := B,
                unchangedDays := 1, lastRun := d1 })).write =
      some { hash := hashIssues digest issues, briefing := B,
             unchangedDays := 2, lastRun := d2 } ∧
    (handleDailyBriefing digest g3 d3 issues
        (some { hash := hashIssues digest issues, briefing := B,
                unchangedDays := 2, lastRun := d2 })).sent = SNAP_MSG ∧
    (handleDailyBriefing digest g3 d3 issues
        (some { hash := hashIssues digest issues, briefing := B,
                unchangedDays := 2, lastRun := d2 })).write =
      some { hash := hashIssues digest issues, briefing := B,
             unchangedDays := 3, lastRun := d3 } := by
  have hlen : ¬ issues.length = 0 := by simpa using hne
  refine ⟨?_, ?_, ?_, ?_, ?_, ?_⟩ <;>
    simp [handleDailyBriefing, hlen, STALE_DAYS_THRESHOLD]

/-- Witness for C1 at a concrete input: a one-issue snapshot, identity
digest, concrete dates and briefing text. -/
theorem briefing_escalation_witness :
    ([({ identifier := "YAK-1" } : Issue)] ≠ []) ∧
    (handleDailyBriefing (fun s => s) "g3" "d3" [{ identifier := "YAK-1" }]
        (some { hash := hashIssues (fun s => s) [{ identifier := "YAK-1" }],
                briefing := "the briefing", unchangedDays := 2,
                lastRun := "d2" })).sent = SNAP_MSG ∧
    (handleDailyBriefing (fun s => s) "g3" "d3" [{ identifier := "YAK-1" }]
        (some { hash := hashIssues (fun s => s) [{ identifier := "YAK-1" }],
                briefing := "the briefing", unchangedDays := 2,
                lastRun := "d2" })).write =
      some { hash := hashIssues (fun s => s) [{ identifier := "YAK-1" }],
             briefing := "the briefing", unchangedDays := 3,
             lastRun := "d3" } := by
  have h := briefing_escalation (fun s => s) "the briefing" "d0" "d1" "d2" "d3"
    "g1" "g2" "g3" [{ identifier := "YAK-1" }] (by decide)
  exact ⟨by decide, h.2.2.2.2.1, h.2.2.2.2.2⟩

/-- C4: Empty-snapshot carve-out — a scheduled run with zero issues
emits exactly the fixed "nothing active" message and writes nothing to
the cache, regardless of digest, generated text, date, or current cache
state. -/
theorem briefing_empty_snapshot (digest : String → String)
    (gen today : String) (cache : Option CacheRec) :
    handleDailyBriefing digest gen today [] cache =
      { sent := NO_ISSUES_MSG, write := none } := rfl

/-- C7: Memory bounding — every `saveHistory` leaves at most
`2 × MAX_HISTORY_PAIRS = 40` entries, and replaying any sequence of
exchanges stores exactly the most recent `MAX_HISTORY_PAIRS` pairs,
oldest first. -/
theorem memory_bounding :
    (∀ (existing : List Turn) (u a : String),
      (saveHistory existing u a).length ≤ MAX_HISTORY_PAIRS * 2) ∧
    (∀ pairs : List (String × String),
      appendAll pairs =
        ((pairs.drop (pairs.length - MAX_HISTORY_PAIRS)).map pairTurns).flatten) := by
  have hlen : ∀ (n : Nat) (l : List Turn), (sliceLast n l).length ≤ n := by
    intro n l
    simp only [sliceLast, List.length_drop]
    omega
  have hle : ∀ (n : Nat) (l : List Turn), l.length ≤ n → sliceLast n l = l := by
    intro n l h
    simp only [sliceLast]
    have : l.length - n = 0 := by omega
    rw [this, List.drop_zero]
  have hcomp : ∀ (n : Nat) (xs ys : List Turn),
      sliceLast n (sliceLast n xs ++ ys) = sliceLast n (xs ++ ys) := by
    intro n xs ys
    simp only [sliceLast]
    have e : xs.length - n ≤ xs.length := by omega
    rw [← List.drop_append_of_le_length e, List.drop_drop]
    congr 1
    simp only [List.length_drop, List.length_append]
    omega
  have hdropflat : ∀ (pairs : List (String × String)) (m : Nat),
      ((pairs.map pairTurns).flatten).drop (2 * m) =
        ((pairs.drop m).map pairTurns).flatten := by
    intro pairs
    induction pairs with
    | nil => intro m; simp
    | cons p ps ih =>
      intro m
      cases m with
      | zero => simp
      | succ k =>
        have h2 : 2 * (k + 1) = (pairTurns p).length + 2 * k := by
          simp [pairTurns]
          omega
        simp only [List.map_cons, List.flatten_cons, h2, List.drop_append,
          List.drop_succ_cons]
        exact ih k
  have hflatlen : ∀ pairs : List (String × String),
      ((pairs.map pairTurns).flatten).length = 2 * pairs.length := by
    intro pairs
    induction pairs with
    | nil => simp
    | cons p ps ih => simp [pairTurns, ih]; omega
  have hfold : ∀ (pairs : List (String × String)) (acc : List Turn),
      acc.length ≤ MAX_HISTORY_PAIRS * 2 →
      List.foldl (fun h p => saveHistory h p.1 p.2) acc pairs =
        sliceLast (MAX_HISTORY_PAIRS * 2) (acc ++ (pairs.map pairTurns).flatten) := by
    intro pairs
    induction pairs with
    | nil =>
      intro acc hacc
      simp only [List.foldl_nil, List.map_nil, List.flatten_nil,
        List.append_nil]
      exact (hle _ acc hacc).symm
    | cons p ps ih =>
      intro acc hacc
      have hstep : saveHistory acc p.1 p.2 =
          sliceLast (MAX_HISTORY_PAIRS * 2) (acc ++ pairTurns p) := rfl
      calc List.foldl (fun h p => saveHistory h p.1 p.2) acc (p :: ps)
          = List.foldl (fun h p => saveHistory h p.1 p.2)
              (saveHistory acc p.1 p.2) ps := rfl
        _ = sliceLast (MAX_HISTORY_PAIRS * 2)
              (saveHistory acc p.1 p.2 ++ (ps.map pairTurns).flatten) :=
            ih _ (hlen _ _)
        _ = sliceLast (MAX_HISTORY_PAIRS * 2)
              (sliceLast (MAX_HISTORY_PAIRS * 2) (acc ++ pairTurns p) ++
                (ps.map pairTurns).flatten) := by rw [hstep]
        _ = sliceLast (MAX_HISTORY_PAIRS * 2)
              ((acc ++ pairTurns p) ++ (ps.map pairTurns).flatten) :=
            hcomp _ _ _
        _ = sliceLast (MAX_HISTORY_PAIRS * 2)
              (acc ++ ((p :: ps).map pairTurns).flatten) := by
            rw [List.append_assoc]
            simp [List.flatten_cons]
  constructor
  · intro existing u a
    exact hlen _ _
  · intro pairs
    have h1 : appendAll pairs =
        sliceLast (MAX_HISTORY_PAIRS * 2) ((pairs.map pairTurns).flatten) := by
      have := hfold pairs [] (by simp [MAX_HISTORY_PAIRS])
      simpa [appendAll] using this
    rw [h1]
    simp only [sliceLast, hflatlen pairs]
    have h2 : 2 * pairs.length - MAX_HISTORY_PAIRS * 2 =
        2 * (pairs.length - MAX_HISTORY_PAIRS) := by omega
    rw [h2, hdropflat]

/-- Helper: a response stream that always requests tools drives the loop
through all its fuel. -/
theorem agentLoopAux_all_toolUse (oracle : Nat → Response)
    (h : ∀ n, (oracle n).stopReason = "tool_use") :
    ∀ (fuel i : Nat), agentLoopAux oracle fuel i = (oracle (i + fuel), i + fuel) := by
  intro fuel
  induction fuel with
  | zero => intro i; simp [agentLoopAux]
  | succ k ih =>
    intro i
    simp only [agentLoopAux, h i, if_pos]
    rw [ih (i + 1)]
    have he : i + 1 + k = i + (k + 1) := by omega
    rw [he]

/-- C5 counterexample: with a response whose only content is one empty
text block, the code returns the fixed fallback, not the newline-joined
concatenation of the text segments (which is the empty string) — so
"the final text returned is the newline-joined concatenation of the
text segments of the last model response" fails when segments exist but
join to the empty string. -/
theorem agent_final_text_counterexample :
    (runAgentModel
        (fun _ => { stopReason := "end_turn",
                    content := [ContentBlock.text ""] })).1 = FALLBACK_TEXT ∧
    String.intercalate "\n"
      (textSegments { stopReason := "end_turn",
                      content := [ContentBlock.text ""] }) = "" ∧
    FALLBACK_TEXT ≠ "" :=
  ⟨rfl, rfl, by decide⟩

/-- C5 (amended): for every response sequence that always requests a
tool, the loop runs exactly `MAX_ITERATIONS = 10` tool iterations and
exits with the 11th response; the final text is the newline-joined text
segments of that response unless the join is empty (in particular when
no text segments exist), in which case it is the fixed non-empty
fallback — the returned text is never empty. -/
theorem agent_loop_termination (oracle : Nat → Response)
    (h : ∀ n, (oracle n).stopReason = "tool_use") :
    (runAgentModel oracle).2 = MAX_ITERATIONS ∧
    agentLoopAux oracle MAX_ITERATIONS 0 = (oracle MAX_ITERATIONS, MAX_ITERATIONS) ∧
    (runAgentModel oracle).1 =
      (if String.intercalate "\n" (textSegments (oracle MAX_ITERATIONS)) = ""
       then FALLBACK_TEXT
       else String.intercalate "\n" (textSegments (oracle MAX_ITERATIONS))) ∧
    (runAgentModel oracle).1 ≠ "" := by
  have key := agentLoopAux_all_toolUse oracle h MAX_ITERATIONS 0
  simp only [Nat.zero_add] at key
  refine ⟨?_, key, ?_, ?_⟩
  · simp [runAgentModel, key]
  · simp [runAgentModel, key, extractFinalText]
  · simp only [runAgentModel, key, extractFinalText]
    by_cases hj : String.intercalate "\n" (textSegments (oracle MAX_ITERATIONS)) = ""
    · rw [if_pos hj]
      decide
    · rw [if_neg hj]
      exact hj

/-- Witness for C5 at a concrete input: the constant tool-requesting
response stream runs exactly 10 iterations. -/
theorem agent_loop_termination_witness :
    (∀ n : Nat, ((fun _ => ({ stopReason := "tool_use", content := [] } : Response))
        n).stopReason = "tool_use") ∧
    (runAgentModel (fun _ => { stopReason := "tool_use", content := [] })).2 =
      MAX_ITERATIONS :=
  ⟨fun _ => rfl,
   (agent_loop_termination (fun _ => { stopReason := "tool_use", content := [] })
      (fun _ => rfl)).1⟩

/-- C2 counterexample: `findIssue` uppercases the requested identifier
and compares it verbatim against stored identifiers, so in a snapshot
whose stored identifier is `"yak-1"` (not uppercase), the request
`"yak-1"` — equal to the stored identifier even letter-for-letter, hence
certainly equal up to case — resolves to nothing, and set-status returns
a Failure, refuting "resolves iff some issue matches up to letter
case". -/
theorem issue_resolution_counterexample :
    jsToUpper ({ identifier := "yak-1" } : Issue).identifier =
      jsToUpper "yak-1" ∧
    findIssue "yak-1" [{ identifier := "yak-1" }] = none ∧
    executeTool
      { updateIssue := fun _ _ => .error "offline",
        createIssue := fun _ => .error "offline",
        createComment := fun _ _ => .error "offline",
        createProject := fun _ _ _ => .error "offline",
        createLabel := fun _ _ => .error "offline" }
      "update_issue_status"
      { issue_identifier := "yak-1", status := "Todo" }
      { issues := [{ identifier := "yak-1" }] } =
      (.error (issueNotFoundMsg "yak-1"), []) := by
  refine ⟨rfl, by decide, rfl⟩

/-- C2 (amended): resolution matches the uppercased input against stored
identifiers verbatim; when every stored identifier is uppercase-invariant
(as real Linear identifiers are), this is exactly case-insensitive
matching: lookup succeeds iff some issue's identifier equals the input
up to letter case, an unresolved identifier makes set-status return the
Failure citing it, and a resolved one (with a valid state and a
succeeding mutation) returns Success reflecting the new state. -/
theorem issue_resolution (ext : ExtCalls) (ctx : Ctx) (idf st : String)
    (hw : ∀ i ∈ ctx.issues, jsToUpper i.identifier = i.identifier) :
    ((findIssue idf ctx.issues).isSome ↔
      ∃ i ∈ ctx.issues, jsToUpper i.identifier = jsToUpper idf) ∧
    (findIssue idf ctx.issues = none →
      executeTool ext "update_issue_status"
        { issue_identifier := idf, status := st } ctx =
        (.error (issueNotFoundMsg idf), [])) ∧
    (∀ i, findIssue idf ctx.issues = some i →
      ∀ s, matchState ctx.states st = some s →
      ∀ u, ext.updateIssue i.id { stateId := some s.id } = .ok u →
      executeTool ext "update_issue_status"
        { issue_identifier := idf, status := st } ctx =
        (.success (.statusUpdate u.identifier u.title u.stateName),
         [.updateIssue i.id { stateId := some s.id }])) := by
  refine ⟨?_, ?_, ?_⟩
  · unfold findIssue
    simp only [List.find?_isSome]
    constructor
    · rintro ⟨i, hi, hp⟩
      have : i.identifier = jsToUpper idf := by simpa using hp
      exact ⟨i, hi, (hw i hi).trans this⟩
    · rintro ⟨i, hi, hup⟩
      refine ⟨i, hi, ?_⟩
      simp only [beq_iff_eq]
      exact ((hw i hi).symm.trans hup)
  · intro hnone
    simp only [executeTool, dispatchTool, handleUpdateStatus, hnone]
    rfl
  · intro i hfind s hstate u hok
    simp only [executeTool, dispatchTool, handleUpdateStatus, hfind, hstate,
      callExt, hok]
    rfl

/-- Witness for C2 at a concrete input: an uppercase snapshot where
"yak-1" (lowercase request) resolves and set-status succeeds. -/
theorem issue_resolution_witness :
    (∀ i ∈ [({ identifier := "YAK-1", id := "iid" } : Issue)],
      jsToUpper i.identifier = i.identifier) ∧
    (findIssue "yak-1" [{ identifier := "YAK-1", id := "iid" }]).isSome ∧
    executeTool
      { updateIssue := fun _ _ =>
          .ok { identifier := "YAK-1", title := "t", stateName := "Done" },
        createIssue := fun _ => .error "offline",
        createComment := fun _ _ => .error "offline",
        createProject := fun _ _ _ => .error "offline",
        createLabel := fun _ _ => .error "offline" }
      "update_issue_status" { issue_identifier := "yak-1", status := "done" }
      { issues := [{ identifier := "YAK-1", id := "iid" }],
        states := [{ id := "sid", name := "Done", type := "completed" }] } =
      (.success (.statusUpdate "YAK-1" "t" "Done"),
       [.updateIssue "iid" { stateId := some "sid" }]) := by
  have h := issue_resolution
    { updateIssue := fun _ _ =>
        .ok { identifier := "YAK-1", title := "t", stateName := "Done" },
      createIssue := fun _ => .error "offline",
      createComment := fun _ _ => .error "offline",
      createProject := fun _ _ _ => .error "offline",
      createLabel := fun _ _ => .error "offline" }
    { issues := [{ identifier := "YAK-1", id := "iid" }],
      states := [{ id := "sid", name := "Done", type := "completed" }] }
    "yak-1" "done" (by decide)
  refine ⟨by decide, ?_, ?_⟩
  · exact (h.1).mpr ⟨{ identifier := "YAK-1", id := "iid" }, by decide, by decide⟩
  · exact h.2.2 { identifier := "YAK-1", id := "iid" } (by decide)
      { id := "sid", name := "Done", type := "completed" } (by decide)
      { identifier := "YAK-1", title := "t", stateName := "Done" } rfl

/-- C6: Executor totality — `executeTool` always returns a structured
result object and never propagates an exception: an unknown tool name
yields the "Unknown tool" error result; a dispatch that throws (any
exception from a handler or external call) is caught and wrapped as an
error result carrying the error text; a dispatch that returns normally
has its result passed through. -/
theorem executeTool_total (ext : ExtCalls) (toolName : String)
    (input : ToolInput) (ctx : Ctx) :
    (toolName ∉ knownTools →
      executeTool ext toolName input ctx =
        (.error ("Unknown tool: " ++ toolName), [])) ∧
    (∀ e log, (dispatchTool ext toolName input ctx).run.run [] = (.error e, log) →
      executeTool ext toolName input ctx =
        (.error ("Tool \"" ++ toolName ++ "\" failed: " ++ e), log)) ∧
    (∀ r log, (dispatchTool ext toolName input ctx).run.run [] = (.ok r, log) →
      executeTool ext toolName input ctx = (r, log)) := by
  refine ⟨?_, ?_, ?_⟩
  · intro hn
    have hd : dispatchTool ext toolName input ctx =
        pure (.error ("Unknown tool: " ++ toolName)) := by
      unfold dispatchTool
      split <;> first
        | rfl
        | exact absurd (by decide) hn
    unfold executeTool
    rw [hd]
    rfl
  · intro e log h
    unfold executeTool
    rw [h]
  · intro r log h
    unfold executeTool
    rw [h]

/-- Witness for C6 at a concrete input: an unregistered tool name
produces the "Unknown tool" error result, and a throwing handler call
is wrapped. -/
theorem executeTool_total_witness :
    ("frobnicate" ∉ knownTools) ∧
    executeTool
      { updateIssue := fun _ _ => .error "offline",
        createIssue := fun _ => .error "offline",
        createComment := fun _ _ => .error "offline",
        createProject := fun _ _ _ => .error "offline",
        createLabel := fun _ _ => .error "offline" }
      "frobnicate" {} {} = (.error "Unknown tool: frobnicate", []) ∧
    executeTool
      { updateIssue := fun _ _ => .error "offline",
        createIssue := fun _ => .error "offline",
        createComment := fun _ _ => .error "offline",
        createProject := fun _ _ _ => .error "offline",
        createLabel := fun _ _ => .error "offline" }
      "create_project" { name := "P" } { teamId := "T" } =
      (.error "Tool \"create_project\" failed: offline",
       [.createProject "P" ["T"] none]) := by
  refine ⟨by decide, ?_, ?_⟩
  · exact (executeTool_total
      { updateIssue := fun _ _ => .error "offline",
        createIssue := fun _ => .error "offline",
        createComment := fun _ _ => .error "offline",
        createProject := fun _ _ _ => .error "offline",
        createLabel := fun _ _ => .error "offline" }
      "frobnicate" {} {}).1 (by decide)
  · exact (executeTool_total
      { updateIssue := fun _ _ => .error "offline",
        createIssue := fun _ => .error "offline",
        createComment := fun _ _ => .error "offline",
        createProject := fun _ _ _ => .error "offline",
        createLabel := fun _ _ => .error "offline" }
      "create_project" { name := "P" } { teamId := "T" }).2.1 "offline"
      [.createProject "P" ["T"] none] rfl

/-- C8: Label idempotence — when the resolved label's id is already on
the issue, add-label returns Success without issuing any external
mutation; when it is not, the one `updateIssue` mutation appends the
label id to the existing id set (rather than replacing it) and the sent
id set contains the id exactly once; re-invoking on the refreshed issue
(which now carries the label) returns Success with no mutation, so the
label id count stays exactly one. -/
theorem add_label_idempotent (ext : ExtCalls) (ctx ctx2 : Ctx)
    (input : ToolInput) (issue issue2 : Issue) (l : Label) (u : UpdatedIssue)
    (hfind : findIssue input.issue_identifier ctx.issues = some issue)
    (hlab : ctx.labels.find?
      (fun x => jsToLower x.name == jsToLower input.label_name) = some l)
    (hnotin : l.id ∉ issue.labels.map Label.id)
    (hok : ext.updateIssue issue.id
      { labelIds := some (issue.labels.map Label.id ++ [l.id]) } = .ok u)
    (hfind2 : findIssue input.issue_identifier ctx2.issues = some issue2)
    (hlab2 : ctx2.labels.find?
      (fun x => jsToLower x.name == jsToLower input.label_name) = some l)
    (hissue2 : issue2.labels = issue.labels ++ [l]) :
    executeTool ext "add_label" input ctx =
      (.success (.labelAdd u.identifier u.labelNames),
       [.updateIssue issue.id
          { labelIds := some (issue.labels.map Label.id ++ [l.id]) }]) ∧
    List.count l.id (issue.labels.map Label.id ++ [l.id]) = 1 ∧
    executeTool ext "add_label" input ctx2 =
      (.success (.labelAlready
        (issue2.identifier ++ " already has label \"" ++ l.name ++ "\"")), []) ∧
    List.count l.id (issue2.labels.map Label.id) = 1 := by
  have hcontains : (issue.labels.map Label.id).contains l.id = false := by
    simpa using hnotin
  have hcount0 : List.count l.id (issue.labels.map Label.id) = 0 :=
    List.count_eq_zero.mpr hnotin
  have hcontains2 : (issue2.labels.map Label.id).contains l.id = true := by
    simp [hissue2]
  refine ⟨?_, ?_, ?_, ?_⟩
  · simp only [executeTool, dispatchTool, handleAddLabel, hfind, hlab,
      pure_bind, hcontains, Bool.false_eq_true, if_false, callExt, hok]
    rfl
  · simp [List.count_append, hcount0]
  · simp only [executeTool, dispatchTool, handleAddLabel, hfind2, hlab2,
      pure_bind, hcontains2, if_true, callExt]
    rfl
  · rw [hissue2]
    simp [List.count_append, hcount0]

/-- Witness for C8 at a concrete input: issue "YAK-1" without the
"Blocked" label, then with it. -/
theorem add_label_idempotent_witness :
    findIssue "YAK-1" [{ identifier := "YAK-1", id := "iid" }] =
      some { identifier := "YAK-1", id := "iid" } ∧
    executeTool
      { updateIssue := fun _ _ =>
          .ok { identifier := "YAK-1", labelNames := ["Blocked"] },
        createIssue := fun _ => .error "offline",
        createComment := fun _ _ => .error "offline",
        createProject := fun _ _ _ => .error "offline",
        createLabel := fun _ _ => .error "offline" }
      "add_label" { issue_identifier := "YAK-1", label_name := "blocked" }
      { issues := [{ identifier := "YAK-1", id := "iid" }],
        labels := [{ id := "lid", name := "Blocked" }] } =
      (.success (.labelAdd "YAK-1" ["Blocked"]),
       [.updateIssue "iid" { labelIds := some ["lid"] }]) ∧
    executeTool
      { updateIssue := fun _ _ =>
          .ok { identifier := "YAK-1", labelNames := ["Blocked"] },
        createIssue := fun _ => .error "offline",
        createComment := fun _ _ => .error "offline",
        createProject := fun _ _ _ => .error "offline",
        createLabel := fun _ _ => .error "offline" }
      "add_label" { issue_identifier := "YAK-1", label_name := "blocked" }
      { issues := [{ identifier := "YAK-1", id := "iid",
                     labels := [{ id := "lid", name := "Blocked" }] }],
        labels := [{ id := "lid", name := "Blocked" }] } =
      (.success (.labelAlready "YAK-1 already has label \"Blocked\""), []) := by
  have h := add_label_idempotent
    { updateIssue := fun _ _ =>
        .ok { identifier := "YAK-1", labelNames := ["Blocked"] },
      createIssue := fun _ => .error "offline",
      createComment := fun _ _ => .error "offline",
      createProject := fun _ _ _ => .error "offline",
      createLabel := fun _ _ => .error "offline" }
    { issues := [{ identifier := "YAK-1", id := "iid" }],
      labels := [{ id := "lid", name := "Blocked" }] }
    { issues := [{ identifier := "YAK-1", id := "iid",
                   labels := [{ id := "lid", name := "Blocked" }] }],
      labels := [{ id := "lid", name := "Blocked" }] }
    { issue_identifier := "YAK-1", label_name := "blocked" }
    { identifier := "YAK-1", id := "iid" }
    { identifier := "YAK-1", id := "iid",
      labels := [{ id := "lid", name := "Blocked" }] }
    { id := "lid", name := "Blocked" }
    { identifier := "YAK-1", labelNames := ["Blocked"] }
    (by decide) (by decide) (by decide) rfl (by decide) (by decide) rfl
  exact ⟨by decide, h.1, h.2.2.1⟩

/-- C10 (implicit): create_issue silently drops unresolved optional
references — when the given `project_name` matches no project by
case-insensitive substring, or the given `status` no workflow state by
case-insensitive name, the operation behaves exactly as if that
reference had not been given at all (the issue is created without a
project / with the team's default state, the Success outcome is
indistinguishable, and no indication of the unresolved reference
exists); the built create input carries exactly the resolved project id,
and every subtask input inherits exactly that id — a project id only
when the parent's lookup succeeded. -/
theorem create_issue_lenient (ext : ExtCalls) (ctx : Ctx) (input : ToolInput) :
    ((∀ p ∈ ctx.projects,
        jsIncludes (jsToLower p.name) (jsToLower input.project_name) = false) →
      executeTool ext "create_issue" input ctx =
        executeTool ext "create_issue" { input with project_name := "" } ctx) ∧
    ((∀ s ∈ ctx.states,
        (jsToLower s.name == jsToLower input.status) = false) →
      executeTool ext "create_issue" input ctx =
        executeTool ext "create_issue" { input with status := "" } ctx) ∧
    (createIssueInput input ctx).projectId = resolvedProjectId input ctx ∧
    (∀ parentId pid sub,
      (subIssueInput ctx parentId pid sub).projectId = pid) ∧
    (input.project_name ≠ "" →
      resolvedProjectId input ctx =
        (matchProject ctx.projects input.project_name).map Project.id) := by
  refine ⟨?_, ?_, ?_, ?_, ?_⟩
  · intro hnomatch
    have hfind : matchProject ctx.projects input.project_name = none :=
      List.find?_eq_none.mpr (fun p hp => by simp [hnomatch p hp])
    have hpid : resolvedProjectId input ctx =
        resolvedProjectId { input with project_name := "" } ctx := by
      unfold resolvedProjectId
      by_cases hpn : input.project_name = "" <;> simp [hpn, hfind]
    have hci : createIssueInput input ctx =
        createIssueInput { input with project_name := "" } ctx := by
      unfold createIssueInput
      rw [hpid]
    have hh : handleCreateIssue ext input ctx =
        handleCreateIssue ext { input with project_name := "" } ctx := by
      unfold handleCreateIssue
      rw [hci, hpid]
    simp only [executeTool, dispatchTool, hh]
  · intro hnost
    have hfind : matchState ctx.states input.status = none :=
      List.find?_eq_none.mpr (fun s hs => by simp [hnost s hs])
    have hci : createIssueInput input ctx =
        createIssueInput { input with status := "" } ctx := by
      by_cases hst : input.status = ""
      · congr 1
        rw [← hst]
      · unfold createIssueInput
        have hr : resolvedProjectId { input with status := "" } ctx =
            resolvedProjectId input ctx := rfl
        rw [hr]
        simp [hst, hfind]
    have hh : handleCreateIssue ext input ctx =
        handleCreateIssue ext { input with status := "" } ctx := by
      unfold handleCreateIssue
      rw [hci]
      rfl
    simp only [executeTool, dispatchTool, hh]
  · unfold createIssueInput
    rcases hpr : input.priority with - | p <;>
      rcases hst : matchState ctx.states input.status with - | s <;>
      cases hpid : resolvedProjectId input ctx <;>
      simp [hpr, hst, hpid] <;> split_ifs <;> rfl
  · intro parentId pid sub
    unfold subIssueInput
    rcases hpr : sub.priority with - | p <;> cases pid <;>
      simp [hpr] <;> split_ifs <;> rfl
  · intro h
    unfold resolvedProjectId
    rw [if_pos h]

/-- Witness for C10 at a concrete input: a project name and a status
that resolve to nothing still create the issue as if they were
absent. -/
theorem create_issue_lenient_witness :
    (∀ p ∈ [({ id := "p1", name := "Website" } : Project)],
      jsIncludes (jsToLower p.name) (jsToLower "zzz") = false) ∧
    executeTool
      { updateIssue := fun _ _ => .error "offline",
        createIssue := fun _ => .ok { id := "nid", identifier := "YAK-9" },
        createComment := fun _ _ => .error "offline",
        createProject := fun _ _ _ => .error "offline",
        createLabel := fun _ _ => .error "offline" }
      "create_issue" { title := "T", project_name := "zzz" }
      { teamId := "tid", projects := [{ id := "p1", name := "Website" }] } =
    executeTool
      { updateIssue := fun _ _ => .error "offline",
        createIssue := fun _ => .ok { id := "nid", identifier := "YAK-9" },
        createComment := fun _ _ => .error "offline",
        createProject := fun _ _ _ => .error "offline",
        createLabel := fun _ _ => .error "offline" }
      "create_issue" { title := "T", project_name := "" }
      { teamId := "tid", projects := [{ id := "p1", name := "Website" }] } := by
  refine ⟨by decide, ?_⟩
  have h := (create_issue_lenient
    { updateIssue := fun _ _ => .error "offline",
      createIssue := fun _ => .ok { id := "nid", identifier := "YAK-9" },
      createComment := fun _ _ => .error "offline",
      createProject := fun _ _ _ => .error "offline",
      createLabel := fun _ _ => .error "offline" }
    { teamId := "tid", projects := [{ id := "p1", name := "Website" }] }
    { title := "T", project_name := "zzz" }).1 (by decide)
  exact h

end YakDev
